import Mathlib

/-!
# Verification of the Flask user-management REST API (`src/app.py`)

Shallow embedding of the single-file Flask application.  JSON request
payloads are modelled by `JValue`; Python-level operations that can raise
(`in` on a non-container, `.strip()` / `.lower()` on a non-string,
`payload[key]` on a missing key) are modelled in `Except String`, the
error string recording the Python exception.  The on-disk `users.json`
file is modelled at the parsed-JSON-document level (an `Option JValue`:
`none` stands for a missing or unparsable file); `json.dump`/`json.load`
are the external standard library and are inverse on documents, so
`save_data`/`load_data` move between the collection and the document.
Wall-clock timestamps (`str(datetime.utcnow())`) are passed in as an
explicit `now : String` argument.
-/

/-- A JSON value, as produced by Flask's `request.get_json`.  `null` also
stands for Python `None` (which is what `get_json(force=True, silent=True)`
returns on an unparsable body). -/
inductive JValue where
  | null : JValue
  | bool (b : Bool) : JValue
  | num (n : Int) : JValue
  | str (s : String) : JValue
  | arr (elems : List JValue) : JValue
  | obj (fields : List (String × JValue)) : JValue
deriving Repr

/-- Structural equality of JSON values (Python `==` on parsed JSON). -/
def JValue.beq : JValue → JValue → Bool
  | .null, .null => true
  | .bool a, .bool b => a == b
  | .num a, .num b => a == b
  | .str a, .str b => a == b
  | .arr [], .arr [] => true
  | .arr (x :: xs), .arr (y :: ys) => JValue.beq x y && JValue.beq (.arr xs) (.arr ys)
  | .obj [], .obj [] => true
  | .obj ((k1, v1) :: xs), .obj ((k2, v2) :: ys) =>
    k1 == k2 && JValue.beq v1 v2 && JValue.beq (.obj xs) (.obj ys)
  | _, _ => false

instance : BEq JValue := ⟨JValue.beq⟩

/-- Python truthiness of a JSON value (`if not x`). -/
def truthy : JValue → Bool
  | .null => false
  | .bool b => b
  | .num n => n != 0
  | .str s => s != ""
  | .arr elems => !elems.isEmpty
  | .obj fields => !fields.isEmpty

/-- `isinstance(v, str)`. -/
def JValue.isStr : JValue → Bool
  | .str _ => true
  | _ => false

/-- `d.get(key)` on a dict: the value if the key is present, else `None`
(a JSON `null` value and an absent key both come out as Python `None`). -/
def dictGet (fields : List (String × JValue)) (key : String) : JValue :=
  match fields.find? (fun kv => kv.1 == key) with
  | some kv => kv.2
  | none => .null

/-- `payload.get(key)`: raises `AttributeError` unless the value is a dict. -/
def pyGetField (payload : JValue) (key : String) : Except String JValue :=
  match payload with
  | .obj fields => .ok (dictGet fields key)
  | _ => .error "AttributeError: get"

/-- `payload[key]`: `KeyError` on a missing key, `TypeError` on a non-dict. -/
def pyGetItem (payload : JValue) (key : String) : Except String JValue :=
  match payload with
  | .obj fields =>
    match fields.find? (fun kv => kv.1 == key) with
    | some kv => .ok kv.2
    | none => .error "KeyError"
  | _ => .error "TypeError: not subscriptable"

/-- Leading and trailing whitespace removed from a character list. -/
def stripChars (l : List Char) : List Char :=
  ((l.dropWhile Char.isWhitespace).reverse.dropWhile Char.isWhitespace).reverse

/-- Python `s.strip()` on a string (whitespace trimming, computed on the
character list). -/
def pyStripStr (s : String) : String := String.mk (stripChars s.data)

/-- Python `s.lower()` on a string (per-character lowercasing, computed on
the character list). -/
def pyLowerStr (s : String) : String := String.mk (s.data.map Char.toLower)

/-- Is `needle` an infix of the character list? (Python `sub in s` on strings.) -/
def containsSub (needle : List Char) : List Char → Bool
  | [] => needle.isEmpty
  | c :: rest => needle.isPrefixOf (c :: rest) || containsSub needle rest

/-- The Python `in` operator with a string left operand: substring test on a
string, membership on a list, key membership on a dict, `TypeError` otherwise
(ints and bools are not containers). -/
def pyContains (needle : String) (v : JValue) : Except String Bool :=
  match v with
  | .str s => .ok (containsSub needle.toList s.toList)
  | .arr elems => .ok (elems.contains (.str needle))
  | .obj fields => .ok (fields.any (fun kv => kv.1 == needle))
  | _ => .error "TypeError: argument of type is not iterable"

/-- `v.strip()`: `AttributeError` on a non-string. -/
def pyStrip : JValue → Except String String
  | .str s => .ok (pyStripStr s)
  | _ => .error "AttributeError: strip"

/-- `v.lower()`: `AttributeError` on a non-string. -/
def pyLower : JValue → Except String String
  | .str s => .ok (pyLowerStr s)
  | _ => .error "AttributeError: lower"

/-- A user record.  Records reachable through the application's own
operations always carry `id`, `name`, `email`, `created_at`, and carry
`updated_at` exactly when the record has been updated at least once. -/
structure User where
  id : Int
  name : String
  email : String
  created_at : String
  updated_at : Option String
deriving Repr, DecidableEq

/-- The JSON object written for one record (key order as built in
`create_user`; `updated_at` present only once set). -/
def userToJson (u : User) : JValue :=
  .obj ([("id", .num u.id), ("name", .str u.name), ("email", .str u.email),
         ("created_at", .str u.created_at)] ++
        (match u.updated_at with
         | none => []
         | some t => [("updated_at", .str t)]))

/-- The JSON array written by `save_data`. -/
def usersToJson (users : List User) : JValue :=
  .arr (users.map userToJson)

/-- Read one record back out of its JSON object. -/
def jsonToUser (v : JValue) : Option User :=
  match v with
  | .obj [("id", .num i), ("name", .str n), ("email", .str e),
          ("created_at", .str c)] =>
    some { id := i, name := n, email := e, created_at := c, updated_at := none }
  | .obj [("id", .num i), ("name", .str n), ("email", .str e),
          ("created_at", .str c), ("updated_at", .str t)] =>
    some { id := i, name := n, email := e, created_at := c, updated_at := some t }
  | _ => none

/-- Read the whole collection back out of the persisted JSON array. -/
def decodeUsers (v : JValue) : Option (List User) :=
  match v with
  | .arr elems => elems.mapM jsonToUser
  | _ => none

/-- `save_data(users)`: rewrite the file with the full collection (the
document that `json.dump` serialises). -/
def save_data (users : List User) : Option JValue :=
  some (usersToJson users)

/-- `load_data()`: the parsed file contents, or `[]` when the file is
missing or `json.load` fails (both modelled by `none`). -/
def load_data (file : Option JValue) : JValue :=
  match file with
  | none => .arr []
  | some v => v

/-- The process state: the in-memory `users` list and the `users.json`
file contents. -/
structure AppState where
  users : List User
  file : Option JValue
deriving Repr

/-- `max` of a list of ids, `none` when empty (Python `max(...)` raises on
an empty iterable, which `next_id` guards against). -/
def idMax : List Int → Option Int
  | [] => none
  | x :: xs => some (xs.foldl max x)

/-- `next_id(users)`: 1 for an empty collection, otherwise the maximum
existing id plus one. -/
def next_id (users : List User) : Int :=
  match idMax (users.map User.id) with
  | none => 1
  | some m => m + 1

/-- `find_user(users, user_id)`: first record with the given id, if any. -/
def find_user (users : List User) (user_id : Int) : Option User :=
  users.find? (fun u => u.id == user_id)

/-- `validate_user_payload` name test, evaluated exactly in Python's order:
`not name or not isinstance(name, str) or len(name.strip()) < 2` (the
`len` is only reached on a string, so this never raises). -/
def nameInvalid (name : JValue) : Bool :=
  !truthy name ||
  (match name with
   | .str s => (pyStripStr s).length < 2
   | _ => true)

/-- `validate_user_payload` email test:
`not email or "@" not in email or len(email.strip()) < 5`.  The `in` test
raises `TypeError` on a truthy int/bool, and `.strip()` raises
`AttributeError` on a truthy non-string container that passed the `in`
test, exactly as in Python. -/
def emailInvalid (email : JValue) : Except String Bool :=
  if !truthy email then .ok true
  else
    match pyContains "@" email with
    | .error e => .error e
    | .ok hasAt =>
      if !hasAt then .ok true
      else
        match pyStrip email with
        | .error e => .error e
        | .ok s => .ok (s.length < 5)

/-- `validate_user_payload(payload, require_email)`: the `(ok, err)` pair,
or the Python exception the email test can raise. -/
def validate_user_payload (payload : JValue) (require_email : Bool) :
    Except String (Bool × Option String) :=
  match payload with
  | .obj fields =>
    if nameInvalid (dictGet fields "name") then
      .ok (false, some "Field 'name' is required (min 2 chars).")
    else if require_email then
      match emailInvalid (dictGet fields "email") with
      | .error e => .error e
      | .ok true =>
        .ok (false, some "Field 'email' is required and must look like an email.")
      | .ok false => .ok (true, none)
    else .ok (true, none)
  | _ => .ok (false, some "Payload must be a JSON object.")

/-- Outcome of `POST /users` (`create_user`).  `raised` records an uncaught
Python exception (HTTP 500), the other constructors carry the HTTP status:
400, 409, 201. -/
inductive CreateResult where
  | validationError (msg : Option String) : CreateResult
  | duplicateEmail : CreateResult
  | created (u : User) : CreateResult
  | raised (e : String) : CreateResult
deriving Repr, DecidableEq

/-- `create_user()`: validate, reject a duplicate email (comparing the
lowercased but *untrimmed* payload email against stored emails), then
append the new record (with *trimmed* fields) and persist. -/
def create_user (st : AppState) (payload : JValue) (now : String) :
    CreateResult × AppState :=
  match validate_user_payload payload true with
  | .error e => (.raised e, st)
  | .ok (false, err) => (.validationError err, st)
  | .ok (true, _) =>
    match pyGetItem payload "email" with
    | .error e => (.raised e, st)
    | .ok emailV =>
      match pyLower emailV with
      | .error e => (.raised e, st)
      | .ok emailLower =>
        if st.users.any (fun u => pyLowerStr u.email == emailLower) then
          (.duplicateEmail, st)
        else
          match pyGetItem payload "name", pyStrip emailV with
          | .error e, _ => (.raised e, st)
          | .ok _, .error e => (.raised e, st)
          | .ok nameV, .ok emailS =>
            match pyStrip nameV with
            | .error e => (.raised e, st)
            | .ok nameS =>
              (.created { id := next_id st.users, name := nameS, email := emailS,
                          created_at := now, updated_at := none },
               { users := st.users ++
                   [{ id := next_id st.users, name := nameS, email := emailS,
                      created_at := now, updated_at := none }],
                 file := save_data (st.users ++
                   [{ id := next_id st.users, name := nameS, email := emailS,
                      created_at := now, updated_at := none }]) })

/-- Outcome of `PUT /users/<id>` (`update_user`): 404, 400, 409, 200, or an
uncaught exception. -/
inductive UpdateResult where
  | notFound : UpdateResult
  | badRequest (msg : String) : UpdateResult
  | duplicateEmail : UpdateResult
  | updated (u : User) : UpdateResult
  | raised (e : String) : UpdateResult
deriving Repr, DecidableEq

/-- Replace the first record whose id matches by `f` of it, leaving every
other record in place (Python mutates the dict returned by `find_user`,
which is the first match, in the list it belongs to). -/
def updateFirst (uid : Int) (f : User → User) : List User → List User
  | [] => []
  | u :: rest =>
    if u.id == uid then f u :: rest else u :: updateFirst uid f rest

/-- Tail of `update_user` after the field edits: stamp `updated_at` on the
found record, persist, and return the mutated record. -/
def finishUpdate (users2 : List User) (user_id : Int) (now : String) :
    UpdateResult × AppState :=
  match find_user
      (updateFirst user_id (fun u => { u with updated_at := some now }) users2)
      user_id with
  | some u =>
    (.updated u,
     { users := updateFirst user_id (fun u => { u with updated_at := some now }) users2,
       file := save_data
         (updateFirst user_id (fun u => { u with updated_at := some now }) users2) })
  | none =>
    (.raised "KeyError",
     { users := updateFirst user_id (fun u => { u with updated_at := some now }) users2,
       file := save_data
         (updateFirst user_id (fun u => { u with updated_at := some now }) users2) })

/-- The email branch of `update_user`, entered after the name branch has
already mutated `users` to `users1`: `if email: ...` with validation,
uniqueness against all other ids, then the edit; then the unconditional
`updated_at` stamp and save. -/
def applyEmailUpdate (users1 : List User) (file : Option JValue)
    (user_id : Int) (emailV : JValue) (now : String) : UpdateResult × AppState :=
  if truthy emailV then
    match pyContains "@" emailV with
    | .error e => (.raised e, { users := users1, file := file })
    | .ok hasAt =>
      if !hasAt then (.badRequest "Invalid email", { users := users1, file := file })
      else
        match pyStrip emailV with
        | .error e => (.raised e, { users := users1, file := file })
        | .ok es =>
          if es.length < 5 then
            (.badRequest "Invalid email", { users := users1, file := file })
          else
            match pyLower emailV with
            | .error e => (.raised e, { users := users1, file := file })
            | .ok elow =>
              if users1.any (fun u => u.id != user_id && pyLowerStr u.email == elow) then
                (.duplicateEmail, { users := users1, file := file })
              else
                finishUpdate
                  (updateFirst user_id (fun u => { u with email := es }) users1)
                  user_id now
  else finishUpdate users1 user_id now

/-- `update_user(user_id)`: 404 when absent, 400 on a falsy payload, then
the partial name/email edits with the name edit applied *before* the email
checks, and finally the stamp-and-save tail. -/
def update_user (st : AppState) (user_id : Int) (payload : JValue)
    (now : String) : UpdateResult × AppState :=
  match find_user st.users user_id with
  | none => (.notFound, st)
  | some _ =>
    if !truthy payload then (.badRequest "No JSON payload provided", st)
    else
      match pyGetField payload "name", pyGetField payload "email" with
      | .error e, _ => (.raised e, st)
      | .ok _, .error e => (.raised e, st)
      | .ok nameV, .ok emailV =>
        if truthy nameV then
          match nameV with
          | .str ns =>
            if (pyStripStr ns).length < 2 then (.badRequest "Invalid name", st)
            else
              applyEmailUpdate
                (updateFirst user_id (fun u => { u with name := pyStripStr ns }) st.users)
                st.file user_id emailV now
          | _ => (.badRequest "Invalid name", st)
        else applyEmailUpdate st.users st.file user_id emailV now

/-- Outcome of `DELETE /users/<id>`: 404 or 200. -/
inductive DeleteResult where
  | notFound : DeleteResult
  | deleted (user_id : Int) : DeleteResult
deriving Repr, DecidableEq

/-- `delete_user(user_id)`: 404 when absent, else drop every record with
that id and persist. -/
def delete_user (st : AppState) (user_id : Int) : DeleteResult × AppState :=
  match find_user st.users user_id with
  | none => (.notFound, st)
  | some _ =>
    (.deleted user_id,
     { users := st.users.filter (fun u => u.id != user_id),
       file := save_data (st.users.filter (fun u => u.id != user_id)) })

/-- The body of a successful `GET /users` response: `meta` (total, page,
limit-or-"all") and the page of records. -/
structure ListResponse where
  total : Nat
  page : Int
  limit : JValue
  data : List User
deriving Repr

/-- Python list slicing `xs[start:stop]` (no step): negative indices count
from the end, then both are clamped to `[0, len]`. -/
def pySlice {α : Type} (xs : List α) (start stop : Int) : List α :=
  (xs.take ((if stop < 0 then max ((xs.length : Int) + stop) 0
             else min stop (xs.length : Int)).toNat)).drop
    ((if start < 0 then max ((xs.length : Int) + start) 0
      else min start (xs.length : Int)).toNat)

/-- The `q` filter of `get_users`: when the trimmed lowercased query is
non-empty, keep records whose lowercased name or email contains it. -/
def filterUsers (users : List User) (q : String) : List User :=
  let qn := pyLowerStr (pyStripStr q)
  if qn == "" then users
  else
    users.filter (fun u =>
      containsSub qn.toList (pyLowerStr u.name).toList ||
      containsSub qn.toList (pyLowerStr u.email).toList)

/-- `get_users()` after the integer parsing of `page`/`limit`: filter,
count, slice when `limit > 0`, and report `limit or "all"` in the meta. -/
def get_users (users : List User) (q : String) (page limit : Int) :
    ListResponse :=
  { total := (filterUsers users q).length,
    page := page,
    limit := if limit == 0 then .str "all" else .num limit,
    data :=
      if limit > 0 then
        pySlice (filterUsers users q) ((page - 1) * limit)
          ((page - 1) * limit + limit)
      else filterUsers users q }

/-- The two hardcoded sample records seeded when the store starts empty. -/
def seedUsers (t1 t2 : String) : List User :=
  [ { id := 1, name := "Aman", email := "aman@example.com", created_at := t1,
      updated_at := none },
    { id := 2, name := "Priya", email := "priya@example.com", created_at := t2,
      updated_at := none } ]

/-- Does the collection hold at most one record per case-insensitive email? -/
def emailUniqueB : List User → Bool
  | [] => true
  | u :: rest =>
    rest.all (fun v => pyLowerStr v.email != pyLowerStr u.email) && emailUniqueB rest

/-- A store of `n` records with ids `1..n` and pairwise distinct emails. -/
def sampleUsers (n : Nat) : List User :=
  (List.range n).map (fun i =>
    { id := (i : Int) + 1, name := "u" ++ toString (i + 1),
      email := "u" ++ toString (i + 1) ++ "@x.co", created_at := "t",
      updated_at := none })

/-- Modelled from the spec's words for the list operation: "the slice of
the filtered list at offset `(page-1)*limit` with length at most `limit`,
clamped to the available range".  Used to compare the claimed slice with
the Python slice actually taken. -/
def specClampedSlice (xs : List User) (page limit : Int) : List User :=
  (xs.drop ((page - 1) * limit).toNat).take limit.toNat

/-- Modelled from the spec's words for `validate`: "`name` must be
present, a string, and ≥2 characters after trimming". -/
def specNameOK (nv : JValue) : Bool :=
  match nv with
  | .str s => 2 ≤ (pyStripStr s).length
  | _ => false

/-- Modelled from the spec's words for `validate`: "`email` must be
present, contain `@`, and be ≥5 characters after trimming". -/
def specEmailOK (ev : JValue) : Bool :=
  match ev with
  | .str s => containsSub "@".toList s.toList && 5 ≤ (pyStripStr s).length
  | _ => false

/-- Email field values on which the Python email test cannot raise:
falsy values (short-circuited away) and strings. -/
def emailFieldSafe (ev : JValue) : Bool :=
  !truthy ev || ev.isStr

/-- The frame relation for `update_user`: positions keep their id, and a
position whose id is not the targeted one keeps its record unchanged. -/
def frameRel (uid : Int) (a b : User) : Prop :=
  a.id = b.id ∧ (a.id ≠ uid → b = a)

/-- The seeded startup state, persisted immediately as `app.py` does. -/
def dupSeedState : AppState :=
  { users := seedUsers "t0" "t0", file := save_data (seedUsers "t0" "t0") }

/-- `{"name": "Ab", "email": "a@bcd"}`. -/
def dupPayloadA : JValue := .obj [("name", .str "Ab"), ("email", .str "a@bcd")]

/-- `{"name": "Cd", "email": " a@bcd "}` — same email padded with spaces. -/
def dupPayloadB : JValue := .obj [("name", .str "Cd"), ("email", .str " a@bcd ")]

/-- A store whose ids are 1 and 3: the id sequence has a gap below the
maximum. -/
def gapState : AppState :=
  { users := [{ id := 1, name := "Aman", email := "aman@example.com",
                created_at := "t", updated_at := none },
              { id := 3, name := "Cara", email := "cara@x.co",
                created_at := "t", updated_at := none }],
    file := none }

/-!
## Supporting lemmas
-/

theorem jsonToUser_userToJson (u : User) : jsonToUser (userToJson u) = some u := by
  cases u with
  | mk i n e c t => cases t <;> rfl

theorem decodeUsers_usersToJson (users : List User) :
    decodeUsers (usersToJson users) = some users := by
  induction users with
  | nil => rfl
  | cons u rest ih =>
    simp only [decodeUsers, usersToJson, List.map_cons, List.mapM_cons,
      jsonToUser_userToJson, Option.pure_def, Option.bind_eq_bind,
      Option.some_bind]
    simp only [decodeUsers, usersToJson] at ih
    rw [ih]
    rfl

theorem usersToJson_inj {a b : List User} (h : usersToJson a = usersToJson b) :
    a = b := by
  have ha := decodeUsers_usersToJson a
  rw [h, decodeUsers_usersToJson b] at ha
  exact (Option.some_inj.mp ha).symm

theorem find_user_updateFirst (users : List User) (uid : Int) (f : User → User)
    (hf : ∀ u, (f u).id = u.id) :
    find_user (updateFirst uid f users) uid = (find_user users uid).map f := by
  induction users with
  | nil => rfl
  | cons u rest ih =>
    by_cases h : u.id = uid
    · simp [updateFirst, find_user, List.find?_cons, h, hf]
    · simp only [updateFirst, beq_iff_eq, h, if_false]
      simpa [find_user, List.find?_cons, h] using ih

theorem updateFirst_updateFirst (uid : Int) (f g : User → User)
    (users : List User) (hf : ∀ u, (f u).id = u.id) :
    updateFirst uid g (updateFirst uid f users) =
      updateFirst uid (fun u => g (f u)) users := by
  induction users with
  | nil => rfl
  | cons u rest ih =>
    by_cases h : u.id = uid
    · simp [updateFirst, h, hf]
    · simp [updateFirst, h, ih]

theorem updateFirst_frame (uid : Int) (f : User → User) (users : List User)
    (hf : ∀ u, (f u).id = u.id) :
    List.Forall₂ (frameRel uid) users (updateFirst uid f users) := by
  induction users with
  | nil => exact List.Forall₂.nil
  | cons u rest ih =>
    by_cases h : u.id = uid
    · simp only [updateFirst, beq_iff_eq, h, if_true]
      exact List.Forall₂.cons ⟨(hf u).symm, fun hne => absurd h hne⟩
        (List.forall₂_same.mpr fun x _ => ⟨rfl, fun _ => rfl⟩)
    · simp only [updateFirst, beq_iff_eq, h, if_false]
      exact List.Forall₂.cons ⟨rfl, fun _ => rfl⟩ ih

theorem frameRel_comp (uid : Int) {a b c : List User}
    (h1 : List.Forall₂ (frameRel uid) a b)
    (h2 : List.Forall₂ (frameRel uid) b c) :
    List.Forall₂ (frameRel uid) a c := by
  induction h1 generalizing c with
  | nil => cases h2; exact List.Forall₂.nil
  | cons hab h1' ih =>
    cases h2 with
    | cons hbc h2' =>
      refine List.Forall₂.cons ⟨hab.1.trans hbc.1, fun hne => ?_⟩ (ih h2')
      have := hab.2 hne
      rw [hbc.2 (hab.1 ▸ hne), this]

theorem foldl_max_spec (l : List Int) (a : Int) :
    a ≤ l.foldl max a ∧ (∀ x ∈ l, x ≤ l.foldl max a) ∧
      (l.foldl max a = a ∨ l.foldl max a ∈ l) := by
  induction l generalizing a with
  | nil => exact ⟨le_refl a, by simp, Or.inl rfl⟩
  | cons x xs ih =>
    obtain ⟨h1, h2, h3⟩ := ih (max a x)
    refine ⟨le_trans (le_max_left a x) h1, ?_, ?_⟩
    · intro y hy
      rcases List.mem_cons.mp hy with rfl | hy
      · exact le_trans (le_max_right a y) h1
      · exact h2 y hy
    · rcases h3 with h | h
      · rcases max_choice a x with hm | hm
        · exact Or.inl (by rw [List.foldl_cons, h, hm])
        · exact Or.inr (by rw [List.foldl_cons, h, hm]; exact List.mem_cons_self x xs)
      · exact Or.inr (List.mem_cons_of_mem x h)

theorem next_id_spec_aux (users : List User) (h : users ≠ []) :
    (∃ u, u ∈ users ∧ next_id users = u.id + 1) ∧
      ∀ u ∈ users, u.id < next_id users := by
  match users, h with
  | u0 :: rest, _ =>
    obtain ⟨h1, h2, h3⟩ := foldl_max_spec (rest.map User.id) u0.id
    constructor
    · rcases h3 with hm | hm
      · exact ⟨u0, List.mem_cons_self u0 rest, by
          simp only [next_id, idMax, List.map_cons, hm]⟩
      · obtain ⟨v, hv, hveq⟩ := List.mem_map.mp hm
        exact ⟨v, List.mem_cons_of_mem u0 hv, by
          simp only [next_id, idMax, List.map_cons, ← hveq]⟩
    · intro u hu
      rcases List.mem_cons.mp hu with rfl | hu
      · simpa [next_id, idMax] using Int.lt_add_one_of_le h1
      · have : u.id ≤ (rest.map User.id).foldl max u0.id :=
          h2 u.id (List.mem_map.mpr ⟨u, hu, rfl⟩)
        simpa [next_id, idMax] using Int.lt_add_one_of_le this

theorem slice_clamp {α : Type} (xs : List α) (A B : Nat) :
    (xs.take (min (A + B) xs.length)).drop (min A xs.length) =
      (xs.drop A).take B := by
  rcases le_or_lt xs.length A with h | h
  · rw [min_eq_right (le_trans h (Nat.le_add_right A B)), min_eq_right h,
      List.take_length, List.drop_length, List.drop_of_length_le h,
      List.take_nil]
  · rw [min_eq_left (le_of_lt h)]
    rcases le_or_lt (A + B) xs.length with h2 | h2
    · rw [min_eq_left h2, ← List.take_drop]
    · rw [min_eq_right (le_of_lt h2), List.take_length,
        List.take_of_length_le (by rw [List.length_drop]; omega)]

theorem pyGetItem_of_dictGet (fields : List (String × JValue)) (key : String)
    (v : JValue) (hv : v ≠ .null) (h : dictGet fields key = v) :
    pyGetItem (.obj fields) key = .ok v := by
  simp only [pyGetItem]
  simp only [dictGet] at h
  cases hf : fields.find? (fun kv => kv.1 == key) with
  | none =>
    rw [hf] at h
    exact absurd h.symm hv
  | some kv =>
    rw [hf] at h
    exact congrArg Except.ok h

theorem validate_ok_inv (fields : List (String × JValue))
    (h : validate_user_payload (.obj fields) true = .ok (true, none)) :
    nameInvalid (dictGet fields "name") = false ∧
    emailInvalid (dictGet fields "email") = .ok false := by
  simp only [validate_user_payload] at h
  by_cases hn : nameInvalid (dictGet fields "name") = true
  · rw [if_pos hn] at h
    cases h
  · rw [if_neg hn] at h
    simp only [if_true] at h
    refine ⟨Bool.not_eq_true _ |>.mp hn, ?_⟩
    cases he : emailInvalid (dictGet fields "email") with
    | error e =>
      rw [he] at h
      cases h
    | ok b =>
      cases b with
      | false => rfl
      | true =>
        rw [he] at h
        cases h

theorem finishUpdate_users (users2 : List User) (uid : Int) (now : String) :
    (finishUpdate users2 uid now).2.users =
      updateFirst uid (fun v => { v with updated_at := some now }) users2 := by
  unfold finishUpdate
  split <;> rfl

theorem finishUpdate_found (users2 : List User) (uid : Int) (now : String)
    (u : User) (h : find_user users2 uid = some u) :
    finishUpdate users2 uid now =
      (.updated { u with updated_at := some now },
       { users := updateFirst uid (fun v => { v with updated_at := some now }) users2,
         file := save_data
           (updateFirst uid (fun v => { v with updated_at := some now }) users2) }) := by
  unfold finishUpdate
  rw [find_user_updateFirst users2 uid
    (fun u => { u with updated_at := some now }) (fun v => rfl), h,
    Option.map_some']

theorem finishUpdate_stamp (users2 : List User) (uid : Int) (now : String)
    (u : User) (h : (finishUpdate users2 uid now).1 = .updated u) :
    u.updated_at = some now := by
  unfold finishUpdate at h
  rw [find_user_updateFirst users2 uid
    (fun u => { u with updated_at := some now }) (fun v => rfl)] at h
  cases hw : find_user users2 uid with
  | none => rw [hw] at h; cases h
  | some w =>
    rw [hw, Option.map_some'] at h
    cases h
    rfl

theorem pySlice_nonneg {α : Type} (xs : List α) (a b : Int)
    (ha : 0 ≤ a) (hb : 0 ≤ b) :
    pySlice xs a (a + b) = (xs.drop a.toNat).take b.toNat := by
  unfold pySlice
  rw [if_neg (by omega), if_neg (by omega)]
  have h1 : (min a (xs.length : Int)).toNat = min a.toNat xs.length := by omega
  have h2 : (min (a + b) (xs.length : Int)).toNat =
      min (a.toNat + b.toNat) xs.length := by omega
  rw [h1, h2, slice_clamp]

theorem forall2_frame_refl (uid : Int) (users : List User) :
    List.Forall₂ (frameRel uid) users users :=
  List.forall₂_same.mpr fun x _ => ⟨rfl, fun _ => rfl⟩

theorem finishUpdate_frame (users2 : List User) (uid : Int) (now : String) :
    List.Forall₂ (frameRel uid) users2 (finishUpdate users2 uid now).2.users := by
  rw [finishUpdate_users]
  exact updateFirst_frame uid _ users2 (fun v => rfl)

theorem applyEmailUpdate_stamp (users1 : List User) (file : Option JValue)
    (uid : Int) (emailV : JValue) (now : String) (u : User)
    (h : (applyEmailUpdate users1 file uid emailV now).1 = .updated u) :
    u.updated_at = some now := by
  unfold applyEmailUpdate at h
  repeat' split at h
  all_goals first
    | exact finishUpdate_stamp _ _ _ _ h
    | simp at h

theorem update_user_stamp (st : AppState) (uid : Int) (payload : JValue)
    (now : String) (u : User)
    (h : (update_user st uid payload now).1 = .updated u) :
    u.updated_at = some now := by
  unfold update_user at h
  repeat' split at h
  all_goals first
    | exact applyEmailUpdate_stamp _ _ _ _ _ _ h
    | simp at h

theorem applyEmailUpdate_frame (users1 : List User) (file : Option JValue)
    (uid : Int) (emailV : JValue) (now : String) :
    List.Forall₂ (frameRel uid) users1
      (applyEmailUpdate users1 file uid emailV now).2.users := by
  unfold applyEmailUpdate
  repeat' split
  all_goals first
    | exact forall2_frame_refl uid users1
    | exact finishUpdate_frame _ _ _
    | (refine frameRel_comp uid (updateFirst_frame uid _ _ ?_)
         (finishUpdate_frame _ _ _)
       intro v
       rfl)

theorem update_user_frame (st : AppState) (uid : Int) (payload : JValue)
    (now : String) :
    List.Forall₂ (frameRel uid) st.users
      (update_user st uid payload now).2.users := by
  unfold update_user
  repeat' split
  all_goals first
    | exact forall2_frame_refl uid st.users
    | exact applyEmailUpdate_frame _ _ _ _ _
    | (refine frameRel_comp uid (updateFirst_frame uid _ _ ?_)
         (applyEmailUpdate_frame _ _ _ _ _)
       intro v
       rfl)

theorem create_user_append (st : AppState) (payload : JValue) (now : String)
    (u : User) (st2 : AppState)
    (h : create_user st payload now = (.created u, st2)) :
    st2.users = st.users ++ [u] ∧ st2.file = save_data (st.users ++ [u]) := by
  unfold create_user at h
  repeat' split at h
  all_goals simp only [Prod.mk.injEq] at h
  all_goals obtain ⟨h1, h2⟩ := h
  all_goals subst h2
  all_goals first
    | (injection h1 with h1
       subst h1
       exact ⟨rfl, rfl⟩)
    | injection h1

theorem delete_user_found (st : AppState) (uid : Int) (u : User)
    (h : find_user st.users uid = some u) :
    delete_user st uid =
      (.deleted uid,
       { users := st.users.filter (fun v => v.id != uid),
         file := save_data (st.users.filter (fun v => v.id != uid)) }) := by
  unfold delete_user
  rw [h]

theorem nameInvalid_eq (nv : JValue) : nameInvalid nv = !specNameOK nv := by
  cases nv with
  | str s =>
    simp only [nameInvalid, specNameOK, truthy]
    by_cases h : s = ""
    · subst h
      rfl
    · have hs : (s != "") = true := by simpa using h
      rw [hs]
      simp only [Bool.not_true, Bool.false_or]
      rcases Nat.lt_or_ge (pyStripStr s).length 2 with h2 | h2
      · have h3 : ¬ 2 ≤ (pyStripStr s).length := by omega
        simp [h2, h3]
      · have h3 : ¬ (pyStripStr s).length < 2 := by omega
        simp [h2, h3]
  | null => rfl
  | bool b => cases b <;> rfl
  | num n => simp [nameInvalid, specNameOK]
  | arr elems => simp [nameInvalid, specNameOK]
  | obj fields => simp [nameInvalid, specNameOK]

theorem emailInvalid_eq (ev : JValue) (hsafe : emailFieldSafe ev = true) :
    emailInvalid ev = .ok (!specEmailOK ev) := by
  cases ev with
  | str s =>
    by_cases h : s = ""
    · subst h
      rfl
    · have hs : truthy (.str s) = true := by simpa [truthy] using h
      simp only [emailInvalid, hs, Bool.not_true, Bool.false_eq_true, if_false,
        pyContains, specEmailOK, pyStrip]
      by_cases hat : containsSub "@".toList s.toList = true
      · rw [hat]
        simp only [Bool.not_true, Bool.false_eq_true, if_false, Bool.true_and]
        rcases Nat.lt_or_ge (pyStripStr s).length 5 with h5 | h5
        · have h6 : ¬ 5 ≤ (pyStripStr s).length := by omega
          simp [h5, h6]
        · have h6 : ¬ (pyStripStr s).length < 5 := by omega
          simp [h5, h6]
      · have hat2 : containsSub ['@'] s.data = false := by simpa using hat
        simp [hat2]
  | null => rfl
  | bool b =>
    cases b with
    | false => rfl
    | true => simp [emailFieldSafe, truthy, JValue.isStr] at hsafe
  | num n =>
    by_cases h : n = 0
    · subst h
      rfl
    · simp [emailFieldSafe, truthy, JValue.isStr, h] at hsafe
  | arr elems =>
    cases elems with
    | nil => rfl
    | cons x xs => simp [emailFieldSafe, truthy, JValue.isStr] at hsafe
  | obj fields =>
    cases fields with
    | nil => rfl
    | cons x xs => simp [emailFieldSafe, truthy, JValue.isStr] at hsafe

/-!
## Claims
-/

/-- C1: the case-insensitive email uniqueness invariant does **not** hold on
all reachable states.  `create_user` compares the lowercased *untrimmed*
payload email against stored emails but stores the *trimmed* email, so from
the seeded state the create of `"a@bcd"` followed by the create of
`" a@bcd "` both succeed (201) and leave two records with the identical
email `"a@bcd"`. -/
theorem create_duplicate_email_escape :
    (create_user dupSeedState dupPayloadA "t1").1 =
      .created { id := 3, name := "Ab", email := "a@bcd", created_at := "t1",
                 updated_at := none } ∧
    (create_user (create_user dupSeedState dupPayloadA "t1").2 dupPayloadB "t2").1 =
      .created { id := 4, name := "Cd", email := "a@bcd", created_at := "t2",
                 updated_at := none } ∧
    emailUniqueB
      (create_user (create_user dupSeedState dupPayloadA "t1").2 dupPayloadB "t2").2.users
      = false :=
  ⟨rfl, rfl, rfl⟩

/-- C7: persisting the collection with `save_data` and reading it back with
`load_data` yields the same ordered sequence of records (the persisted JSON
array decodes to exactly the collection that was saved). -/
theorem save_load_roundtrip (users : List User) :
    load_data (save_data users) = usersToJson users ∧
    decodeUsers (load_data (save_data users)) = some users :=
  ⟨rfl, decodeUsers_usersToJson users⟩

/-- C8 counterexample: with `require_email` true, a payload whose `email`
field is the (truthy, non-string) number `1` makes
`validate_user_payload` raise `TypeError` at `"@" not in email` instead of
returning an ok/error-message pair. -/
theorem validate_raises_counterexample :
    validate_user_payload (.obj [("name", .str "Bo"), ("email", .num 1)]) true =
      .error "TypeError: argument of type is not iterable" := rfl

theorem create_user_ok (st : AppState) (fields : List (String × JValue))
    (now : String) (ns es : String)
    (hn : dictGet fields "name" = .str ns)
    (he : dictGet fields "email" = .str es)
    (hv : validate_user_payload (.obj fields) true = .ok (true, none))
    (hc : (st.users.any fun u => pyLowerStr u.email == pyLowerStr es) = false) :
    create_user st (.obj fields) now =
      (.created { id := next_id st.users, name := pyStripStr ns,
                  email := pyStripStr es, created_at := now, updated_at := none },
       { users := st.users ++
           [{ id := next_id st.users, name := pyStripStr ns,
              email := pyStripStr es, created_at := now, updated_at := none }],
         file := save_data (st.users ++
           [{ id := next_id st.users, name := pyStripStr ns,
              email := pyStripStr es, created_at := now, updated_at := none }]) }) := by
  simp only [create_user, hv,
    pyGetItem_of_dictGet fields "email" (.str es) (by simp) he,
    pyGetItem_of_dictGet fields "name" (.str ns) (by simp) hn,
    pyLower, pyStrip, hc, Bool.false_eq_true, if_false]

/-- C2: a payload passing validation whose (lowercased, untrimmed) email
matches no stored email creates a record with id `next_id`, trimmed name
and email, `created_at := now`, no `updated_at`; the record is appended
and the collection persisted.  A payload failing validation yields 400
with the store untouched; a case-insensitive email collision yields 409
with the store untouched. -/
theorem create_user_spec :
    (∀ st fields now ns es,
       dictGet fields "name" = .str ns →
       dictGet fields "email" = .str es →
       validate_user_payload (.obj fields) true = .ok (true, none) →
       (st.users.any fun u => pyLowerStr u.email == pyLowerStr es) = false →
       create_user st (.obj fields) now =
         (.created { id := next_id st.users, name := pyStripStr ns,
                     email := pyStripStr es, created_at := now, updated_at := none },
          { users := st.users ++
              [{ id := next_id st.users, name := pyStripStr ns,
                 email := pyStripStr es, created_at := now, updated_at := none }],
            file := save_data (st.users ++
              [{ id := next_id st.users, name := pyStripStr ns,
                 email := pyStripStr es, created_at := now,
                 updated_at := none }]) })) ∧
    (∀ st payload now err,
       validate_user_payload payload true = .ok (false, err) →
       create_user st payload now = (.validationError err, st)) ∧
    (∀ st fields now es,
       dictGet fields "email" = .str es →
       validate_user_payload (.obj fields) true = .ok (true, none) →
       (st.users.any fun u => pyLowerStr u.email == pyLowerStr es) = true →
       create_user st (.obj fields) now = (.duplicateEmail, st)) := by
  refine ⟨fun st fields now ns es hn he hv hc =>
      create_user_ok st fields now ns es hn he hv hc, ?_, ?_⟩
  · intro st payload now err hv
    simp only [create_user, hv]
  · intro st fields now es he hv hdup
    simp only [create_user, hv,
      pyGetItem_of_dictGet fields "email" (.str es) (by simp) he,
      pyLower, hdup, if_true]

/-- Witness for C2: creating `{"name": " Bo ", "email": " bo@x.co "}` in an
empty store yields the trimmed record with id 1 and persists it. -/
theorem create_user_spec_witness :
    create_user { users := [], file := none }
        (.obj [("name", .str " Bo "), ("email", .str " bo@x.co ")]) "t1" =
      (.created { id := 1, name := "Bo", email := "bo@x.co", created_at := "t1",
                  updated_at := none },
       { users := [{ id := 1, name := "Bo", email := "bo@x.co",
                     created_at := "t1", updated_at := none }],
         file := save_data [{ id := 1, name := "Bo", email := "bo@x.co",
                              created_at := "t1", updated_at := none }] }) :=
  create_user_spec.1 { users := [], file := none } _ "t1" " Bo " " bo@x.co "
    rfl rfl rfl rfl

theorem update_user_to_applyEmail (st : AppState) (uid : Int)
    (fields : List (String × JValue)) (now : String) (u0 : User)
    (hfind : find_user st.users uid = some u0)
    (ht : truthy (.obj fields) = true)
    (hnf : truthy (dictGet fields "name") = false) :
    update_user st uid (.obj fields) now =
      applyEmailUpdate st.users st.file uid (dictGet fields "email") now := by
  simp only [update_user, hfind, ht, Bool.not_true, Bool.false_eq_true, if_false,
    pyGetField, hnf]

theorem update_user_to_applyEmail_name (st : AppState) (uid : Int)
    (fields : List (String × JValue)) (now : String) (u0 : User) (ns : String)
    (hfind : find_user st.users uid = some u0)
    (hn : dictGet fields "name" = .str ns)
    (hns : ns ≠ "")
    (hlen : 2 ≤ (pyStripStr ns).length) :
    update_user st uid (.obj fields) now =
      applyEmailUpdate
        (updateFirst uid (fun u => { u with name := pyStripStr ns }) st.users)
        st.file uid (dictGet fields "email") now := by
  have ht : truthy (.obj fields) = true := by
    cases fields with
    | nil => exact absurd hn (by simp [dictGet])
    | cons kv rest => simp [truthy]
  have htn : truthy (.str ns) = true := by simp [truthy, hns]
  simp only [update_user, hfind, ht, Bool.not_true, Bool.false_eq_true, if_false,
    pyGetField, hn, htn, if_true]
  rw [if_neg (by omega)]

theorem applyEmailUpdate_falsy (users1 : List User) (file : Option JValue)
    (uid : Int) (emailV : JValue) (now : String)
    (hef : truthy emailV = false) :
    applyEmailUpdate users1 file uid emailV now = finishUpdate users1 uid now := by
  simp only [applyEmailUpdate, hef, Bool.false_eq_true, if_false]

theorem applyEmailUpdate_valid (users1 : List User) (file : Option JValue)
    (uid : Int) (es : String) (now : String)
    (hes : es ≠ "")
    (hat : containsSub "@".toList es.toList = true)
    (hlen : 5 ≤ (pyStripStr es).length)
    (hdup : (users1.any fun u => u.id != uid && pyLowerStr u.email == pyLowerStr es)
        = false) :
    applyEmailUpdate users1 file uid (.str es) now =
      finishUpdate (updateFirst uid (fun u => { u with email := pyStripStr es }) users1)
        uid now := by
  have hte : truthy (.str es) = true := by simp [truthy, hes]
  simp only [applyEmailUpdate, hte, if_true, pyContains, hat, Bool.not_true,
    Bool.false_eq_true, if_false, pyStrip, pyLower, hdup]
  rw [if_neg (by omega)]

/-- C3: on an existing id, a falsy payload is rejected with 400; a truthy
object payload applies `name`/`email` (trimmed) exactly when the supplied
field value is truthy, leaves falsy or absent fields unchanged, and every
successful update stamps `updated_at := now`, even when both fields were
skipped. -/
theorem update_user_partial_spec :
    (∀ st uid payload now u0,
       find_user st.users uid = some u0 →
       truthy payload = false →
       update_user st uid payload now =
         (.badRequest "No JSON payload provided", st)) ∧
    (∀ st uid fields now u0,
       find_user st.users uid = some u0 →
       truthy (.obj fields) = true →
       truthy (dictGet fields "name") = false →
       truthy (dictGet fields "email") = false →
       (update_user st uid (.obj fields) now).1 =
         .updated { u0 with updated_at := some now }) ∧
    (∀ st uid fields now u0 ns,
       find_user st.users uid = some u0 →
       dictGet fields "name" = .str ns →
       ns ≠ "" →
       2 ≤ (pyStripStr ns).length →
       truthy (dictGet fields "email") = false →
       (update_user st uid (.obj fields) now).1 =
         .updated { u0 with name := pyStripStr ns, updated_at := some now }) ∧
    (∀ st uid fields now u0 es,
       find_user st.users uid = some u0 →
       truthy (dictGet fields "name") = false →
       dictGet fields "email" = .str es →
       es ≠ "" →
       containsSub "@".toList es.toList = true →
       5 ≤ (pyStripStr es).length →
       (st.users.any fun u => u.id != uid && pyLowerStr u.email == pyLowerStr es)
           = false →
       (update_user st uid (.obj fields) now).1 =
         .updated { u0 with email := pyStripStr es, updated_at := some now }) ∧
    (∀ st uid payload now u,
       (update_user st uid payload now).1 = .updated u →
       u.updated_at = some now) := by
  refine ⟨?_, ?_, ?_, ?_, fun st uid payload now u h =>
    update_user_stamp st uid payload now u h⟩
  · intro st uid payload now u0 hfind hp
    simp only [update_user, hfind, hp, Bool.not_false, if_true]
  · intro st uid fields now u0 hfind ht hnf hef
    rw [update_user_to_applyEmail st uid fields now u0 hfind ht hnf,
      applyEmailUpdate_falsy st.users st.file uid _ now hef,
      finishUpdate_found st.users uid now u0 hfind]
  · intro st uid fields now u0 ns hfind hn hns hlen hef
    have h2 : find_user
        (updateFirst uid (fun u => { u with name := pyStripStr ns }) st.users) uid
        = some { u0 with name := pyStripStr ns } := by
      rw [find_user_updateFirst st.users uid
        (fun u => { u with name := pyStripStr ns }) (fun v => rfl), hfind,
        Option.map_some']
    rw [update_user_to_applyEmail_name st uid fields now u0 ns hfind hn hns hlen,
      applyEmailUpdate_falsy _ st.file uid _ now hef,
      finishUpdate_found _ uid now _ h2]
  · intro st uid fields now u0 es hfind hnf he hes hat hlen hdup
    have ht : truthy (.obj fields) = true := by
      cases fields with
      | nil => exact absurd he (by simp [dictGet])
      | cons kv rest => simp [truthy]
    have h2 : find_user
        (updateFirst uid (fun u => { u with email := pyStripStr es }) st.users) uid
        = some { u0 with email := pyStripStr es } := by
      rw [find_user_updateFirst st.users uid
        (fun u => { u with email := pyStripStr es }) (fun v => rfl), hfind,
        Option.map_some']
    rw [update_user_to_applyEmail st uid fields now u0 hfind ht hnf, he,
      applyEmailUpdate_valid st.users st.file uid es now hes hat hlen hdup,
      finishUpdate_found _ uid now _ h2]

/-- Witness for C3: updating record 1 of the seeded store with
`{"name": "  Bobby  ", "email": ""}` trims and applies the name, silently
skips the falsy email, and stamps `updated_at`. -/
theorem update_user_partial_spec_witness :
    (update_user dupSeedState 1
        (.obj [("name", .str "  Bobby  "), ("email", .str "")]) "t9").1 =
      .updated { id := 1, name := "Bobby", email := "aman@example.com",
                 created_at := "t0", updated_at := some "t9" } :=
  update_user_partial_spec.2.2.1 dupSeedState 1 _ "t9"
    { id := 1, name := "Aman", email := "aman@example.com", created_at := "t0",
      updated_at := none }
    "  Bobby  " rfl rfl (by decide) (by decide) rfl

theorem applyEmailUpdate_invalid (users1 : List User) (file : Option JValue)
    (uid : Int) (es : String) (now : String)
    (hes : es ≠ "")
    (hbad : containsSub "@".toList es.toList = false ∨ (pyStripStr es).length < 5) :
    applyEmailUpdate users1 file uid (.str es) now =
      (.badRequest "Invalid email", { users := users1, file := file }) := by
  have hte : truthy (.str es) = true := by simp [truthy, hes]
  rcases hbad with hat | hlen
  · simp only [applyEmailUpdate, hte, if_true, pyContains, hat, Bool.not_false]
  · by_cases hat : containsSub "@".toList es.toList = true
    · simp only [applyEmailUpdate, hte, if_true, pyContains, hat, Bool.not_true,
        Bool.false_eq_true, if_false, pyStrip]
      rw [if_pos hlen]
    · have hat2 : containsSub "@".toList es.toList = false := by simpa using hat
      simp only [applyEmailUpdate, hte, if_true, pyContains, hat2, Bool.not_false]

theorem applyEmailUpdate_dup (users1 : List User) (file : Option JValue)
    (uid : Int) (es : String) (now : String)
    (hes : es ≠ "")
    (hat : containsSub "@".toList es.toList = true)
    (hlen : 5 ≤ (pyStripStr es).length)
    (hdup : (users1.any fun u => u.id != uid && pyLowerStr u.email == pyLowerStr es)
        = true) :
    applyEmailUpdate users1 file uid (.str es) now =
      (.duplicateEmail, { users := users1, file := file }) := by
  have hte : truthy (.str es) = true := by simp [truthy, hes]
  simp only [applyEmailUpdate, hte, if_true, pyContains, hat, Bool.not_true,
    Bool.false_eq_true, if_false, pyStrip, pyLower, hdup]
  rw [if_neg (by omega)]

/-- C9: when an existing record is updated with a truthy valid name and a
truthy email that is invalid (400) or duplicates another id (409), the
returned state already carries the renamed record in memory while the file
field is untouched and `updated_at` is unchanged: a state whose file was in
sync before the failed update is out of sync after it. -/
theorem update_failure_not_atomic :
    (∀ st uid fields now u0 ns es,
       find_user st.users uid = some u0 →
       dictGet fields "name" = .str ns →
       ns ≠ "" →
       2 ≤ (pyStripStr ns).length →
       dictGet fields "email" = .str es →
       es ≠ "" →
       (containsSub "@".toList es.toList = false ∨ (pyStripStr es).length < 5) →
       update_user st uid (.obj fields) now =
         (.badRequest "Invalid email",
          { users := updateFirst uid (fun u => { u with name := pyStripStr ns })
              st.users,
            file := st.file }) ∧
       find_user (updateFirst uid (fun u => { u with name := pyStripStr ns })
           st.users) uid =
         some { u0 with name := pyStripStr ns }) ∧
    (∀ st uid fields now u0 ns es,
       find_user st.users uid = some u0 →
       dictGet fields "name" = .str ns →
       ns ≠ "" →
       2 ≤ (pyStripStr ns).length →
       dictGet fields "email" = .str es →
       es ≠ "" →
       containsSub "@".toList es.toList = true →
       5 ≤ (pyStripStr es).length →
       ((updateFirst uid (fun u => { u with name := pyStripStr ns }) st.users).any
           fun u => u.id != uid && pyLowerStr u.email == pyLowerStr es) = true →
       update_user st uid (.obj fields) now =
         (.duplicateEmail,
          { users := updateFirst uid (fun u => { u with name := pyStripStr ns })
              st.users,
            file := st.file }) ∧
       find_user (updateFirst uid (fun u => { u with name := pyStripStr ns })
           st.users) uid =
         some { u0 with name := pyStripStr ns }) ∧
    (∀ users uid ns u0,
       find_user users uid = some u0 →
       u0.name ≠ pyStripStr ns →
       save_data (updateFirst uid (fun u => { u with name := pyStripStr ns }) users)
         ≠ save_data users) := by
  have hfound : ∀ (users : List User) (uid : Int) (u0 : User) (ns : String),
      find_user users uid = some u0 →
      find_user (updateFirst uid (fun u => { u with name := pyStripStr ns }) users)
          uid = some { u0 with name := pyStripStr ns } := by
    intro users uid u0 ns hfind
    rw [find_user_updateFirst users uid
      (fun u => { u with name := pyStripStr ns }) (fun v => rfl), hfind,
      Option.map_some']
  refine ⟨?_, ?_, ?_⟩
  · intro st uid fields now u0 ns es hfind hn hns hlen he hes hbad
    refine ⟨?_, hfound st.users uid u0 ns hfind⟩
    rw [update_user_to_applyEmail_name st uid fields now u0 ns hfind hn hns hlen,
      he, applyEmailUpdate_invalid _ st.file uid es now hes hbad]
  · intro st uid fields now u0 ns es hfind hn hns hlen he hes hat hlen5 hdup
    refine ⟨?_, hfound st.users uid u0 ns hfind⟩
    rw [update_user_to_applyEmail_name st uid fields now u0 ns hfind hn hns hlen,
      he, applyEmailUpdate_dup _ st.file uid es now hes hat hlen5 hdup]
  · intro users uid ns u0 hfind hne heq
    have hlist := usersToJson_inj (Option.some_inj.mp heq)
    have h2 := find_user_updateFirst users uid
      (fun u => { u with name := pyStripStr ns }) (fun v => rfl)
    rw [hlist, hfind, Option.map_some'] at h2
    exact hne (congrArg User.name (Option.some_inj.mp h2))

/-- Witness for C9: updating seeded record 1 with a valid name `"Zed"` and
the invalid email `"bad"` returns 400 while the renamed record is already
in the returned collection and the file component is the pre-update one. -/
theorem update_failure_not_atomic_witness :
    update_user dupSeedState 1
        (.obj [("name", .str "Zed"), ("email", .str "bad")]) "t9" =
      (.badRequest "Invalid email",
       { users := updateFirst 1 (fun u => { u with name := pyStripStr "Zed" })
           dupSeedState.users,
         file := dupSeedState.file }) ∧
    find_user (updateFirst 1 (fun u => { u with name := pyStripStr "Zed" })
        dupSeedState.users) 1 =
      some { id := 1, name := "Zed", email := "aman@example.com",
             created_at := "t0", updated_at := none } :=
  update_failure_not_atomic.1 dupSeedState 1
    [("name", .str "Zed"), ("email", .str "bad")] "t9"
    { id := 1, name := "Aman", email := "aman@example.com", created_at := "t0",
      updated_at := none }
    "Zed" "bad" rfl rfl (by decide) (by decide) rfl (by decide) (Or.inl rfl)

/-- C10: create appends the new record at the end, leaving every existing
record in place; update keeps the length, order and ids of the collection
and leaves every record whose id is not the target unchanged (for every
outcome of the operation); a successful delete removes exactly the records
with the target id, keeping the remaining records in their relative
order. -/
theorem mutation_frame_spec :
    (∀ st payload now u st2,
       create_user st payload now = (.created u, st2) →
       st2.users = st.users ++ [u]) ∧
    (∀ st uid payload now,
       List.Forall₂ (frameRel uid) st.users
         (update_user st uid payload now).2.users) ∧
    (∀ st uid st2,
       delete_user st uid = (.deleted uid, st2) →
       st2.users.Sublist st.users ∧
       (∀ u2 ∈ st.users, u2.id ≠ uid → u2 ∈ st2.users) ∧
       (∀ u2 ∈ st2.users, u2.id ≠ uid)) := by
  refine ⟨fun st payload now u st2 h => (create_user_append st payload now u st2 h).1,
    fun st uid payload now => update_user_frame st uid payload now, ?_⟩
  intro st uid st2 h
  unfold delete_user at h
  cases hf : find_user st.users uid with
  | none =>
    rw [hf] at h
    simp only [Prod.mk.injEq] at h
    exact absurd h.1 (by simp)
  | some w =>
    rw [hf] at h
    simp only [Prod.mk.injEq] at h
    rw [← h.2]
    refine ⟨List.filter_sublist _, ?_, ?_⟩
    · intro u2 hu2 hne
      exact List.mem_filter.mpr ⟨hu2, by simpa using hne⟩
    · intro u2 hu2
      have := (List.mem_filter.mp hu2).2
      simpa using this

/-- Witness for C10: a concrete create appends, a concrete update leaves
the other record untouched positionally, and a concrete delete keeps the
remaining record in order. -/
theorem mutation_frame_spec_witness :
    (create_user { users := seedUsers "t0" "t0", file := none } dupPayloadA
        "t1").2.users =
      seedUsers "t0" "t0" ++
        [{ id := 3, name := "Ab", email := "a@bcd", created_at := "t1",
           updated_at := none }] ∧
    List.Forall₂ (frameRel 1) (seedUsers "t0" "t0")
      (update_user { users := seedUsers "t0" "t0", file := none } 1
        (.obj [("name", .str "Zed")]) "t9").2.users ∧
    ((delete_user { users := seedUsers "t0" "t0", file := none } 1).2.users.Sublist
        (seedUsers "t0" "t0") ∧
      (∀ u2 ∈ seedUsers "t0" "t0", u2.id ≠ 1 →
        u2 ∈ (delete_user { users := seedUsers "t0" "t0", file := none } 1).2.users) ∧
      (∀ u2 ∈ (delete_user { users := seedUsers "t0" "t0", file := none } 1).2.users,
        u2.id ≠ 1)) :=
  ⟨mutation_frame_spec.1 { users := seedUsers "t0" "t0", file := none }
      dupPayloadA "t1" _ _ rfl,
   mutation_frame_spec.2.1 { users := seedUsers "t0" "t0", file := none } 1
      (.obj [("name", .str "Zed")]) "t9",
   mutation_frame_spec.2.2 { users := seedUsers "t0" "t0", file := none } 1 _ rfl⟩

/-- C4 counterexample: in a store with ids 1 and 3, deleting the maximum id
3 and then creating a valid user assigns the new record id 2 (the remaining
maximum plus one), not the freed previous maximum 3. -/
theorem next_id_reuse_counterexample :
    (create_user (delete_user gapState 3).2
        (.obj [("name", .str "Bo"), ("email", .str "bo@x.co")]) "t2").1 =
      .created { id := 2, name := "Bo", email := "bo@x.co", created_at := "t2",
                 updated_at := none } ∧
    (2 : Int) ≠ 3 :=
  ⟨rfl, by decide⟩

/-- C4 (amended): `next_id` is 1 on the empty collection and the maximum
id plus one otherwise; after deleting the record(s) holding the maximum id
`m` and creating a valid non-colliding user, the new record's id is
`next_id` of the remaining collection — at most `m`, and the freed `m`
whenever some remaining record has id `m - 1` (e.g. contiguous ids); it is
never drawn from a counter that ignores deletions. -/
theorem next_id_spec :
    next_id [] = 1 ∧
    (∀ users, users ≠ [] →
       (∃ u, u ∈ users ∧ next_id users = u.id + 1) ∧
       ∀ u ∈ users, u.id < next_id users) ∧
    (∀ st m fields now ns es u0,
       u0 ∈ st.users → u0.id = m → (∀ u ∈ st.users, u.id ≤ m) → 1 ≤ m →
       dictGet fields "name" = .str ns →
       dictGet fields "email" = .str es →
       validate_user_payload (.obj fields) true = .ok (true, none) →
       ((delete_user st m).2.users.any
           fun u => pyLowerStr u.email == pyLowerStr es) = false →
       ∃ u2, (create_user (delete_user st m).2 (.obj fields) now).1 = .created u2 ∧
         u2.id = next_id (delete_user st m).2.users ∧
         u2.id ≤ m ∧
         ((∃ v ∈ (delete_user st m).2.users, v.id = m - 1) → u2.id = m)) := by
  refine ⟨rfl, fun users h => next_id_spec_aux users h, ?_⟩
  intro st m fields now ns es u0 hmem hid hmax hm1 hn he hv hc
  have hsome : (st.users.find? fun u => u.id == m).isSome :=
    List.find?_isSome.mpr ⟨u0, hmem, by simp [hid]⟩
  obtain ⟨w, hw⟩ := Option.isSome_iff_exists.mp hsome
  have hdel := delete_user_found st m w hw
  rw [hdel] at hc ⊢
  rw [create_user_ok _ fields now ns es hn he hv hc]
  refine ⟨_, rfl, rfl, ?_, ?_⟩
  · show next_id (st.users.filter fun v => v.id != m) ≤ m
    cases hR : st.users.filter (fun v => v.id != m) with
    | nil => simpa [next_id, idMax] using hm1
    | cons r rest =>
      obtain ⟨⟨u, hu, hueq⟩, -⟩ := next_id_spec_aux (r :: rest) (by simp)
      rw [← hR] at hu
      have h1 : u.id ≤ m := hmax u (List.mem_filter.mp hu).1
      have h2 : u.id ≠ m := by simpa using (List.mem_filter.mp hu).2
      rw [hueq]
      omega
  · rintro ⟨v, hv2, hv1⟩
    show next_id (st.users.filter fun u => u.id != m) = m
    have hne : st.users.filter (fun u => u.id != m) ≠ [] := by
      intro hnil
      rw [hnil] at hv2
      cases hv2
    obtain ⟨⟨u, hu, hueq⟩, hub⟩ := next_id_spec_aux _ hne
    have h1 : u.id ≤ m := hmax u (List.mem_filter.mp hu).1
    have h2 : u.id ≠ m := by simpa using (List.mem_filter.mp hu).2
    have h3 := hub v hv2
    rw [hueq] at h3 ⊢
    omega

/-- Witness for C4 (amended): with the seeded ids 1 and 2, deleting the
maximum id 2 and creating a valid user reuses the freed id 2 because the
remaining id 1 equals 2 - 1. -/
theorem next_id_spec_witness :
    ∃ u2, (create_user (delete_user dupSeedState 2).2
        (.obj [("name", .str "Bo"), ("email", .str "bo@x.co")]) "t3").1 =
        .created u2 ∧
      u2.id = next_id (delete_user dupSeedState 2).2.users ∧
      u2.id ≤ 2 ∧
      ((∃ v ∈ (delete_user dupSeedState 2).2.users, v.id = 2 - 1) → u2.id = 2) :=
  next_id_spec.2.2 dupSeedState 2 [("name", .str "Bo"), ("email", .str "bo@x.co")]
    "t3" "Bo" "bo@x.co"
    { id := 2, name := "Priya", email := "priya@example.com", created_at := "t0",
      updated_at := none }
    (by decide) rfl (by decide) (by decide) rfl rfl rfl rfl

/-- C5 counterexample: with 25 matching records, `page = -1` and
`limit = 10` return records 6–15 (Python's negative-slice semantics) —
neither the slice at offset `(page-1)*limit` clamped to the available
range (records 1–10) nor an empty list. -/
theorem get_users_negative_page_counterexample :
    (get_users (sampleUsers 25) "" (-1) 10).data =
      ((sampleUsers 25).drop 5).take 10 ∧
    (get_users (sampleUsers 25) "" (-1) 10).data ≠ [] ∧
    (get_users (sampleUsers 25) "" (-1) 10).data ≠
      specClampedSlice (filterUsers (sampleUsers 25) "") (-1) 10 ∧
    (get_users (sampleUsers 25) "" (-1) 10).total = 25 :=
  ⟨rfl, by decide, by decide, rfl⟩

/-- C5 (amended): for every page ≥ 1 and limit > 0 the returned data is the
slice of the filtered list at offset `(page-1)*limit` of length at most
`limit`, clamped, so pages past the data give an empty list, and
`meta.total` is always the filtered count; 25 records paginate as
11–20 / 21–25 / empty with total 25 on pages 2 / 3 / 4.  (For page ≤ 0 the
Python negative-slice semantics applies instead.) -/
theorem get_users_pagination_spec :
    (∀ users q page limit, 1 ≤ page → 0 < limit →
       (get_users users q page limit).data =
         specClampedSlice (filterUsers users q) page limit ∧
       (get_users users q page limit).total = (filterUsers users q).length ∧
       (get_users users q page limit).data.length ≤ limit.toNat ∧
       ((filterUsers users q).length ≤ ((page - 1) * limit).toNat →
         (get_users users q page limit).data = [])) ∧
    (get_users (sampleUsers 25) "" 2 10).data =
      ((sampleUsers 25).drop 10).take 10 ∧
    (get_users (sampleUsers 25) "" 3 10).data = (sampleUsers 25).drop 20 ∧
    (get_users (sampleUsers 25) "" 4 10).data = [] ∧
    (get_users (sampleUsers 25) "" 4 10).total = 25 := by
  refine ⟨?_, rfl, rfl, rfl, rfl⟩
  intro users q page limit hp hl
  have ha : 0 ≤ (page - 1) * limit := mul_nonneg (by omega) (by omega)
  have hdata : (get_users users q page limit).data =
      ((filterUsers users q).drop ((page - 1) * limit).toNat).take limit.toNat := by
    show (if limit > 0
          then pySlice (filterUsers users q) ((page - 1) * limit)
            ((page - 1) * limit + limit)
          else filterUsers users q) = _
    rw [if_pos hl]
    exact pySlice_nonneg _ _ limit ha (by omega)
  refine ⟨hdata, rfl, ?_, ?_⟩
  · rw [hdata]
    exact List.length_take_le _ _
  · intro hlen
    rw [hdata, List.drop_eq_nil_of_le hlen, List.take_nil]

/-- Witness for C5 (amended): the concrete page-2 slice of 25 records. -/
theorem get_users_pagination_spec_witness :
    (get_users (sampleUsers 25) "" 2 10).data =
      specClampedSlice (filterUsers (sampleUsers 25) "") 2 10 ∧
    (get_users (sampleUsers 25) "" 2 10).total =
      (filterUsers (sampleUsers 25) "").length ∧
    (get_users (sampleUsers 25) "" 2 10).data.length ≤ (10 : Int).toNat ∧
    ((filterUsers (sampleUsers 25) "").length ≤ (((2 : Int) - 1) * 10).toNat →
      (get_users (sampleUsers 25) "" 2 10).data = []) :=
  get_users_pagination_spec.1 (sampleUsers 25) "" 2 10 (by decide) (by decide)

/-- C6 counterexample: `limit = -1` leaves the data unpaginated but the
metadata reports the number `-1`, not the string `"all"` (Python's
`limit or "all"` only replaces the falsy `0`). -/
theorem get_users_negative_limit_counterexample :
    (get_users (sampleUsers 3) "" 1 (-1)).data = sampleUsers 3 ∧
    (get_users (sampleUsers 3) "" 1 (-1)).limit = .num (-1) ∧
    JValue.num (-1) ≠ JValue.str "all" :=
  ⟨rfl, rfl, by simp⟩

/-- C6 (amended): every limit ≤ 0 returns all filtered records
unpaginated; the metadata reports `"all"` exactly for limit = 0 and the
negative number itself for limit < 0. -/
theorem get_users_no_pagination_spec :
    (∀ users q page limit, limit ≤ 0 →
       (get_users users q page limit).data = filterUsers users q ∧
       (get_users users q page limit).total = (filterUsers users q).length) ∧
    (∀ users q page, (get_users users q page 0).limit = .str "all") ∧
    (∀ users q page limit, limit < 0 →
       (get_users users q page limit).limit = .num limit) := by
  refine ⟨?_, ?_, ?_⟩
  · intro users q page limit hl
    refine ⟨?_, rfl⟩
    show (if limit > 0
          then pySlice (filterUsers users q) ((page - 1) * limit)
            ((page - 1) * limit + limit)
          else filterUsers users q) = filterUsers users q
    rw [if_neg (by omega)]
  · intro users q page
    rfl
  · intro users q page limit hl
    show (if limit == 0 then JValue.str "all" else JValue.num limit) =
      JValue.num limit
    rw [if_neg (by simp only [beq_iff_eq]; omega)]

/-- Witness for C6 (amended): limit -1 on three records. -/
theorem get_users_no_pagination_spec_witness :
    ((get_users (sampleUsers 3) "" 1 (-1)).data = filterUsers (sampleUsers 3) "" ∧
     (get_users (sampleUsers 3) "" 1 (-1)).total =
       (filterUsers (sampleUsers 3) "").length) ∧
    (get_users (sampleUsers 3) "" 1 0).limit = .str "all" ∧
    (get_users (sampleUsers 3) "" 1 (-1)).limit = .num (-1) :=
  ⟨get_users_no_pagination_spec.1 (sampleUsers 3) "" 1 (-1) (by decide),
   get_users_no_pagination_spec.2.1 (sampleUsers 3) "" 1,
   get_users_no_pagination_spec.2.2 (sampleUsers 3) "" 1 (-1) (by decide)⟩

/-- C8 (amended): `validate_user_payload` rejects non-object payloads with
the fixed message; on an object payload whose `email` field is absent,
falsy, or a string — or when `require_email` is false — it returns,
without raising, exactly the ok/error pair determined by the spec's
predicates (name: present string, ≥ 2 chars trimmed; email: present,
contains `@`, ≥ 5 chars trimmed), and the functional embedding never
mutates the payload.  It does not return a pair on every payload: a truthy
numeric email with `require_email` makes the membership test raise
`TypeError` (see the counterexample). -/
theorem validate_user_payload_spec :
    (∀ v re, (∀ fields, v ≠ .obj fields) →
       validate_user_payload v re =
         .ok (false, some "Payload must be a JSON object.")) ∧
    (∀ fields re,
       (emailFieldSafe (dictGet fields "email") = true ∨ re = false) →
       validate_user_payload (.obj fields) re =
         .ok (if !specNameOK (dictGet fields "name") then
                (false, some "Field 'name' is required (min 2 chars).")
              else if re && !specEmailOK (dictGet fields "email") then
                (false,
                 some "Field 'email' is required and must look like an email.")
              else (true, none))) := by
  constructor
  · intro v re hno
    cases v with
    | obj fields => exact absurd rfl (hno fields)
    | null => rfl
    | bool b => rfl
    | num n => rfl
    | str s => rfl
    | arr elems => rfl
  · intro fields re hsafe
    simp only [validate_user_payload, nameInvalid_eq]
    by_cases hn : specNameOK (dictGet fields "name") = true
    · rw [hn]
      simp only [Bool.not_true, Bool.false_eq_true, if_false]
      cases re with
      | false => simp
      | true =>
        have hs : emailFieldSafe (dictGet fields "email") = true := by
          rcases hsafe with h | h
          · exact h
          · cases h
        rw [emailInvalid_eq _ hs]
        by_cases he : specEmailOK (dictGet fields "email") = true
        · rw [he]
          simp
        · have he2 : specEmailOK (dictGet fields "email") = false := by
            simpa using he
          rw [he2]
          simp
    · have hn2 : specNameOK (dictGet fields "name") = false := by simpa using hn
      rw [hn2]
      simp

/-- Witness for C8 (amended): a valid name and string email are accepted
with the pair `(true, none)`. -/
theorem validate_user_payload_spec_witness :
    validate_user_payload
        (.obj [("name", .str "Bo"), ("email", .str "bo@x.co")]) true =
      .ok (if !specNameOK
              (dictGet [("name", .str "Bo"), ("email", .str "bo@x.co")] "name") then
             (false, some "Field 'name' is required (min 2 chars).")
           else if true && !specEmailOK
              (dictGet [("name", .str "Bo"), ("email", .str "bo@x.co")] "email") then
             (false, some "Field 'email' is required and must look like an email.")
           else (true, none)) :=
  validate_user_payload_spec.2 [("name", .str "Bo"), ("email", .str "bo@x.co")]
    true (Or.inl rfl)
